import Mathlib

/-!
Verification of the MiniTest C++ test-orchestration toolkit
(src/include/TestFramework.hpp, TestSuite.hpp, TestBenchmark.hpp,
TestParams.hpp, TestMock.hpp, TestAssert.hpp) against its
natural-language specification.

Shallow embedding conventions:
* A registered zero-argument action is modelled by its outcome, of type
  `Option String`: `none` means the C++ call returns normally, `some msg`
  means it throws a `std::exception` whose `what()` is `msg` (the only
  failure kind the engine's `catch (const std::exception&)` boundary
  handles; the spec's non-recoverable failures abort the process and are
  outside the claims below).
* `std::vector` registries are Lean lists in push_back (insertion) order.
* `std::unordered_map` registries are association lists with unique keys;
  the list order of the model is the insertion order of the keys, but the
  C++ container's iteration order is unspecified, so every run that
  range-iterates such a map is parameterised by an enumeration `order`
  that may be any permutation of the stored keys.
* Console and log output is modelled as a list of the emitted lines.
-/

namespace MiniTest

/-- A test case as stored by `TestFramework::RegisterTest`
(TestFramework.hpp lines 65-68): a display name and the stored
`std::function<void()>`, modelled by its outcome. -/
structure TestCase where
  name : String
  func : Option String
deriving DecidableEq, Repr

/-- The observable result of one filtered run: emitted console/log lines,
the names of the actions actually executed (in call order, with
multiplicity), and the two counters of
`TestFramework::RunFilteredTests` (TestFramework.hpp line 78). -/
structure RunResult where
  lines : List String
  executed : List String
  passed : Nat
  failed : Nat
deriving DecidableEq, Repr

/-- The per-test loop body of `TestFramework::RunFilteredTests`
(TestFramework.hpp lines 80-96): skip names rejected by the filter;
otherwise print `[RUNNING]`, call the action, and on normal return count
a pass and print `[PASS]`, while a caught `std::exception` counts a fail
and prints `[FAIL] <name> - <what>`. -/
def runTestsLoop (filter : String → Bool) : List TestCase → RunResult
  | [] => ⟨[], [], 0, 0⟩
  | t :: rest =>
    let r := runTestsLoop filter rest
    if filter t.name then
      match t.func with
      | none =>
          ⟨("[RUNNING] " ++ t.name) :: ("[PASS] " ++ t.name) :: r.lines,
           t.name :: r.executed, r.passed + 1, r.failed⟩
      | some msg =>
          ⟨("[RUNNING] " ++ t.name) :: ("[FAIL] " ++ t.name ++ " - " ++ msg) :: r.lines,
           t.name :: r.executed, r.passed, r.failed + 1⟩
    else r

/-- The summary block printed after the loop of `RunFilteredTests`
(TestFramework.hpp lines 98-100). -/
def summaryBlock (passed failed : Nat) : List String :=
  ["===========================================",
   "Total: " ++ toString (passed + failed) ++ ", Passed: " ++ toString passed ++
     ", Failed: " ++ toString failed,
   "==========================================="]

/-- `TestFramework::RunFilteredTests` (TestFramework.hpp lines 76-103):
the filtered loop followed by the summary block. -/
def runFilteredTests (filter : String → Bool) (tests : List TestCase) : RunResult :=
  let r := runTestsLoop filter tests
  { r with lines := r.lines ++ summaryBlock r.passed r.failed }

/-- `TestFramework::RunAllTests` (TestFramework.hpp lines 35-38): banner,
then `RunFilteredTests` with the always-true filter. -/
def runAllTests (tests : List TestCase) : RunResult :=
  let r := runFilteredTests (fun _ => true) tests
  { r with lines := "** Running All Tests **" :: r.lines }

theorem runTestsLoop_executed (filter : String → Bool) (tests : List TestCase) :
    (runTestsLoop filter tests).executed =
      (tests.filter (fun t => filter t.name)).map TestCase.name := by
  induction tests with
  | nil => rfl
  | cons t rest ih =>
    by_cases h : filter t.name = true
    · cases hf : t.func <;>
        simp [runTestsLoop, h, hf, List.filter_cons, ih]
    · simp only [Bool.not_eq_true] at h
      simp [runTestsLoop, h, List.filter_cons, ih]

theorem runTestsLoop_counts (filter : String → Bool) (tests : List TestCase) :
    (runTestsLoop filter tests).passed + (runTestsLoop filter tests).failed =
      (tests.filter (fun t => filter t.name)).length := by
  induction tests with
  | nil => rfl
  | cons t rest ih =>
    by_cases h : filter t.name = true
    · cases hf : t.func <;>
        simp [runTestsLoop, h, hf, List.filter_cons, ← ih] <;> omega
    · simp only [Bool.not_eq_true] at h
      simp [runTestsLoop, h, List.filter_cons, ih]

/-- Boolean test that `needle` is an initial segment of `hay`; this is the
meaning of "name starts with p" in the specification. -/
def beginsWithChars : List Char → List Char → Bool
  | [], _ => true
  | _ :: _, [] => false
  | a :: as, b :: bs => a == b && beginsWithChars as bs

/-- `std::string::find`: the smallest index `≥ i` at which `needle` occurs
as a substring of `hay`, or `none`. Models the call `name.find(prefix)`
in TestFramework.hpp line 44 (and line 59 for `DISABLED_`). -/
def findFromChars (needle : List Char) : List Char → Nat → Option Nat
  | [], i => if beginsWithChars needle [] then some i else none
  | c :: t, i =>
    if beginsWithChars needle (c :: t) then some i else findFromChars needle t (i + 1)

/-- `name.find(p)` on the underlying character sequences. -/
def strFind (name p : String) : Option Nat :=
  findFromChars p.data name.data 0

/-- `TestFramework::RunTestsByPrefix` (TestFramework.hpp lines 41-46):
banner, then `RunFilteredTests` with the filter `name.find(prefix) == 0`. -/
def runTestsWithPrefixFilter (p : String) (tests : List TestCase) : RunResult :=
  let r := runFilteredTests (fun name => strFind name p == some 0) tests
  { r with lines := ("** Running Tests with Prefix '" ++ p ++ "' **") :: r.lines }

theorem findFromChars_le (needle : List Char) :
    ∀ (hay : List Char) (i j : Nat), findFromChars needle hay i = some j → i ≤ j := by
  intro hay
  induction hay with
  | nil =>
    intro i j h
    simp only [findFromChars] at h
    split at h
    · exact le_of_eq (Option.some.inj h)
    · exact absurd h (by simp)
  | cons c t ih =>
    intro i j h
    simp only [findFromChars] at h
    split at h
    · exact le_of_eq (Option.some.inj h)
    · exact le_trans (Nat.le_succ i) (ih (i + 1) j h)

theorem strFind_zero_iff (name p : String) :
    strFind name p = some 0 ↔ beginsWithChars p.data name.data = true := by
  unfold strFind
  cases hn : name.data with
  | nil =>
    constructor
    · intro h
      simp only [findFromChars] at h
      split at h
      · assumption
      · exact absurd h (by simp)
    · intro h; simp [findFromChars, h]
  | cons c t =>
    constructor
    · intro h
      by_contra hb
      simp only [findFromChars, hb, Bool.false_eq_true, if_false] at h
      exact absurd (findFromChars_le p.data t 1 0 h) (by omega)
    · intro h; simp [findFromChars, h]

/-- The state of the `TestSuite` registries (TestSuite.hpp lines 69-81 and
167-170): the suites map (suite name → ordered test vector, which reuses
the name/action shape of `TestCase`), and the key sets of the setup and
teardown hook maps. Hook bodies are opaque void procedures; the model
records their invocation as events. All three C++ containers are
`std::unordered_map`s that `RunSuite`/`RunTests` only ever look keys up
in (never iterate), so association lists with unique keys model them
exactly. -/
structure SuiteState where
  suites : List (String × List TestCase)
  setups : List String
  teardowns : List String
deriving DecidableEq, Repr

/-- One observable event of a `TestSuite` run: hook invocations, the
per-test console lines of `TestSuite::RunTests` (lines 130-141), the
`[ERROR]` lines of `RunSuite` (lines 91 and 114), and the final
`[SUITE] <suite> - Passed: <p>, Failed: <f>` line (line 147). -/
inductive SuiteEvent where
  | setupRun (suite : String)
  | teardownRun (suite : String)
  | running (test : String)
  | pass (test : String)
  | fail (test : String) (msg : String)
  | err (msg : String)
  | summary (suite : String) (passed failed : Nat)
deriving DecidableEq, Repr

/-- `TestSuite::SetupSuite` (TestSuite.hpp lines 54-56): invoke the hook
iff the setup map contains the suite. -/
def setupSuite (st : SuiteState) (suite : String) : List SuiteEvent :=
  if st.setups.contains suite then [SuiteEvent.setupRun suite] else []

/-- `TestSuite::TeardownSuite` (TestSuite.hpp lines 61-63). -/
def teardownSuite (st : SuiteState) (suite : String) : List SuiteEvent :=
  if st.teardowns.contains suite then [SuiteEvent.teardownRun suite] else []

/-- The per-test loop of `TestSuite::RunTests` (TestSuite.hpp lines
130-142): events in order, plus the final values of the `passed` and
`failed` counters. -/
def suiteLoop : List TestCase → List SuiteEvent × Nat × Nat
  | [] => ([], 0, 0)
  | t :: rest =>
    let r := suiteLoop rest
    match t.func with
    | none => (SuiteEvent.running t.name :: SuiteEvent.pass t.name :: r.1, r.2.1 + 1, r.2.2)
    | some m => (SuiteEvent.running t.name :: SuiteEvent.fail t.name m :: r.1, r.2.1, r.2.2 + 1)

/-- `TestSuite::RunTests` (TestSuite.hpp lines 123-148): setup once, the
test loop, teardown once, then the suite summary line. -/
def runTests (st : SuiteState) (tests : List TestCase) (suite : String) : List SuiteEvent :=
  let l := suiteLoop tests
  setupSuite st suite ++ l.1 ++ teardownSuite st suite ++
    [SuiteEvent.summary suite l.2.1 l.2.2]

/-- `TestSuite::RunSuite` (TestSuite.hpp lines 88-116): unknown suite →
error only; empty filter → whole suite through `RunTests`; non-empty
filter → `std::ranges::find_if` for the first exact name match, running
`RunTests` on the singleton if found and reporting an error otherwise. -/
def runSuite (st : SuiteState) (suite testFilter : String) : List SuiteEvent :=
  match st.suites.lookup suite with
  | none => [SuiteEvent.err ("Test suite '" ++ suite ++ "' not found.")]
  | some tests =>
    if testFilter = "" then runTests st tests suite
    else
      match tests.find? (fun t => t.name == testFilter) with
      | some t => runTests st [t] suite
      | none =>
          [SuiteEvent.err ("Test '" ++ testFilter ++ "' not found in suite '" ++ suite ++ "'.")]

/-- The test names marked as executed, in order, within an event trace. -/
def suiteRunningNames (events : List SuiteEvent) : List String :=
  events.filterMap (fun e =>
    match e with
    | SuiteEvent.running n => some n
    | _ => none)

theorem suiteLoop_running_names (tests : List TestCase) :
    suiteRunningNames (suiteLoop tests).1 = tests.map TestCase.name := by
  induction tests with
  | nil => rfl
  | cons t rest ih =>
    simp only [suiteRunningNames] at ih ⊢
    cases hf : t.func <;> simp [suiteLoop, hf, ih]

/-- A benchmark case as stored by `TestBenchmark` (TestBenchmark.hpp lines
77-80): the wrapped `std::function<void()>` is an opaque, completing
action (benchmark bodies are not run under any catch boundary and the
claims never depend on their effect), so only the `int iterations` field
is carried. -/
structure BenchmarkCase where
  iterations : Int
deriving DecidableEq, Repr

/-- `TestBenchmark::RegisterBenchmark` (TestBenchmark.hpp lines 25-27):
`GetBenchmarks()[name] = {func, iterations}` — overwrite the entry if the
key exists, insert it otherwise. Nothing validates `iterations`. The
association list keeps unique keys; its list position records the key's
first-insertion order, which the `std::unordered_map` does NOT use for
iteration. -/
def registerBenchmark (name : String) (iterations : Int) :
    List (String × BenchmarkCase) → List (String × BenchmarkCase)
  | [] => [(name, ⟨iterations⟩)]
  | (n, c) :: rest =>
    if n = name then (n, ⟨iterations⟩) :: rest
    else (n, c) :: registerBenchmark name iterations rest

/-- A sequence of `RegisterBenchmark(name, func, iterations)` calls
applied to the initially empty registry. -/
def benchRegisterList (regs : List (String × Int)) : List (String × BenchmarkCase) :=
  regs.foldl (fun acc r => registerBenchmark r.1 r.2 acc) []

/-- What `TestBenchmark::RunFilteredBenchmarks` reports for one matched
case (TestBenchmark.hpp lines 94-114): the case name, how many times the
action was actually called (`for (int i = 0; i < iterations; ++i)` runs
`iterations.toNat` times — zero times when `iterations ≤ 0`), the raw
`iterations` value used as the divisor of the mean, the summed duration,
and the mean `totalTime / iterations`. The C++ mean is a `double`
division (divisor 0 yields NaN); the model divides in `ℚ`, and the
theorems below only ever inspect the divisor, never the quotient. -/
structure BenchResult where
  name : String
  execCount : Nat
  iterations : Int
  totalTime : ℚ
  avgTime : ℚ
deriving DecidableEq, Repr

/-- `TestBenchmark::RunFilteredBenchmarks` (TestBenchmark.hpp lines
88-116). `entries` is the sequence of key/value pairs the range-for over
the `std::unordered_map` presents — any permutation of the stored
entries, since C++ leaves the order unspecified; theorems constrain it
with `entries.Perm (benchRegisterList …)`. `dur name i` is the measured
wall-clock duration (ms) of repetition `i` of case `name`. No branch of
the source checks `iterations` or reports any error. -/
def runFilteredBenchmarks (entries : List (String × BenchmarkCase))
    (filter : String → Bool) (dur : String → Nat → ℚ) : List BenchResult :=
  entries.filterMap (fun e =>
    if filter e.1 then
      some ⟨e.1, e.2.iterations.toNat, e.2.iterations,
        ((List.range e.2.iterations.toNat).map (dur e.1)).sum,
        ((List.range e.2.iterations.toNat).map (dur e.1)).sum / (e.2.iterations : ℚ)⟩
    else none)

/-- Insert-or-overwrite on an association list keyed by the function's
address, the effect of `map[key] = value` on the C++ maps (the
container is unordered; the model's list position is immaterial because
every access is a keyed lookup). -/
def mapInsert {α : Type} : List (Nat × α) → Nat → α → List (Nat × α)
  | [], key, v => [(key, v)]
  | (k, w) :: rest, key, v =>
    if k = key then (k, v) :: rest else (k, w) :: mapInsert rest key v

/-- The state of the `Mock` registry for one instantiated result type `α`
(TestMock.hpp): `mockFunctions` models the per-type static map
`GetMockFunctions<α>()` (function address → stored constant, lines
54-58, the constant standing for the `[returnValue]() { return
returnValue; }` wrapper); `mockStorage` models the separate static
`std::map<std::type_index, void*>` (lines 60-63). No member of `Mock`
ever inserts into `mockStorage`, so it stays empty — it is modelled
anyway because `ResetAll()` clears it, and only it. -/
structure MockState (α : Type) where
  mockFunctions : List (Nat × α)
  mockStorage : List (Nat × Nat)

/-- `Mock::SetReturn` (TestMock.hpp lines 23-27). -/
def mockSetReturn {α : Type} (st : MockState α) (func : Nat) (returnValue : α) : MockState α :=
  { st with mockFunctions := mapInsert st.mockFunctions func returnValue }

/-- `Mock::Invoke` (TestMock.hpp lines 30-39): the stored constant if the
address is stubbed, otherwise `ReturnType()` — value initialisation,
modelled by `Inhabited.default` (`0` for `Int`). -/
def mockInvoke {α : Type} [Inhabited α] (st : MockState α) (func : Nat) : α :=
  match st.mockFunctions.lookup func with
  | some v => v
  | none => default

/-- `Mock::Reset<α>` (TestMock.hpp lines 42-45): clears the per-type
map. -/
def mockReset {α : Type} (st : MockState α) : MockState α :=
  { st with mockFunctions := [] }

/-- `Mock::ResetAll` (TestMock.hpp lines 48-50): `mockStorage().clear()` —
it touches only the `type_index → void*` map, not any
`GetMockFunctions<α>()` map. -/
def mockResetAll {α : Type} (st : MockState α) : MockState α :=
  { st with mockStorage := [] }

/-- `ASSERT_FAIL` (TestAssert.hpp lines 19-29): the entire macro body —
the message formatting, the `[ASSERT FAIL]` output, the logging and the
`throw std::runtime_error` — sits inside a `/** … **/` comment, so the
macro expands to the empty statement `do { } while (0)`: it completes
normally and signals nothing, whatever the message. -/
def assertFailMacro (_message : String) : Option String := none

/-- `ASSERT_TRUE` (TestAssert.hpp lines 32-37). -/
def assertTrueMacro (condition : Bool) : Option String :=
  if !condition then assertFailMacro "condition is false" else none

/-- `ASSERT_FALSE` (TestAssert.hpp lines 40-45). -/
def assertFalseMacro (condition : Bool) : Option String :=
  if condition then assertFailMacro "condition is true" else none

/-- `ASSERT_EQ` (TestAssert.hpp lines 48-55). -/
def assertEqMacro {α : Type} [DecidableEq α] (renderFn : α → String)
    (expected actual : α) : Option String :=
  if expected ≠ actual then
    assertFailMacro (renderFn expected ++ " != " ++ renderFn actual)
  else none

/-- `ASSERT_NE` (TestAssert.hpp lines 58-65). -/
def assertNeMacro {α : Type} [DecidableEq α] (renderFn : α → String)
    (expected actual : α) : Option String :=
  if expected = actual then
    assertFailMacro (renderFn expected ++ " == " ++ renderFn actual)
  else none

/-- `ASSERT_THROW` (TestAssert.hpp lines 68-81): `statementExc` is the
exception the statement throws, if any, identified by its type name. A
matching throw sets `caught`; a non-matching throw lands in `catch (...)`
and calls `ASSERT_FAIL`; no throw leaves `caught` false and calls
`ASSERT_FAIL` — which in every branch is the empty statement. -/
def assertThrowMacro (statementExc : Option String) (excType : String) : Option String :=
  match statementExc with
  | some thrown =>
    if thrown = excType then none
    else assertFailMacro "Unexpected exception type thrown"
  | none => assertFailMacro ("Expected exception of type " ++ excType ++ " not thrown")

/-- One assertion-macro statement of a test body. -/
inductive AssertCall (α : Type) where
  | assertTrueC (condition : Bool)
  | assertFalseC (condition : Bool)
  | assertEqC (expected actual : α)
  | assertNeC (expected actual : α)
  | assertThrowC (statementExc : Option String) (excType : String)

/-- Execute one assertion-macro statement. -/
def runAssertCall {α : Type} [DecidableEq α] (renderFn : α → String) :
    AssertCall α → Option String
  | .assertTrueC c => assertTrueMacro c
  | .assertFalseC c => assertFalseMacro c
  | .assertEqC e a => assertEqMacro renderFn e a
  | .assertNeC e a => assertNeMacro renderFn e a
  | .assertThrowC s ty => assertThrowMacro s ty

/-- The outcome of a test body that is a sequence of assertion-macro
statements: the first signalled failure, if any (a C++ throw would leave
the rest of the body unexecuted). -/
def runAssertBody {α : Type} [DecidableEq α] (renderFn : α → String) :
    List (AssertCall α) → Option String
  | [] => none
  | c :: rest =>
    match runAssertCall renderFn c with
    | some m => some m
    | none => runAssertBody renderFn rest

/-- One dataset tuple of `TestParams::RegisterParamTest`, modelled by the
textual rendering `oss << std::get<Index>(tuple)` produces for each
element (in tuple order) and by the outcome of
`std::apply(func, paramSet)` for this tuple. Arity/type agreement
between tuple and action is enforced by the C++ type system at
registration, so it needs no dynamic model. -/
structure ParamTuple where
  rendered : List String
  outcome : Option String

/-- `TestParams::FormatTupleImpl` (TestParams.hpp lines 77-82): fold over
the elements, preceding every element whose index is non-zero with
`", "`, then parenthesise; `FormatParams` (lines 84-87) merely forwards
the tuple's elements to it. -/
def formatTupleImpl (rendered : List String) : String :=
  "(" ++ rendered.enum.foldl
    (fun acc p => acc ++ (if p.1 = 0 then "" else ", ") ++ p.2) "" ++ ")"

/-- `TestParams::RegisterParamTest` (TestParams.hpp lines 27-34): for each
tuple of the dataset, in order, push a case named
`name << FormatParams(paramSet)` onto the shared paramTests vector. -/
def registerParamTest (name : String) (params : List ParamTuple)
    (paramTests : List TestCase) : List TestCase :=
  params.foldl (fun acc t => acc ++ [⟨name ++ formatTupleImpl t.rendered, t.outcome⟩])
    paramTests

/-- The specification's rendering of a name suffix: the element renderings
in tuple order, separated by `", "`. -/
def joinCommaSep : List String → String
  | [] => ""
  | [x] => x
  | x :: y :: rest => x ++ ", " ++ joinCommaSep (y :: rest)

/-- Helper: the fold's effect on elements of index ≥ 1. -/
def prependCommas : List String → String
  | [] => ""
  | x :: rest => ", " ++ x ++ prependCommas rest

theorem formatFold_enumFrom (l : List String) :
    ∀ (n : Nat), 0 < n → ∀ (acc : String),
      (List.enumFrom n l).foldl
          (fun acc p => acc ++ (if p.1 = 0 then "" else ", ") ++ p.2) acc =
        acc ++ prependCommas l := by
  induction l with
  | nil =>
    intro n _ acc
    simp [prependCommas]
  | cons x rest ih =>
    intro n hn acc
    have hn0 : ¬ n = 0 := by omega
    simp only [List.enumFrom, List.foldl_cons, hn0, if_false, prependCommas]
    rw [ih (n + 1) (by omega)]
    simp [String.append_assoc]

theorem joinCommaSep_cons (x : String) (t : List String) :
    joinCommaSep (x :: t) = x ++ prependCommas t := by
  induction t generalizing x with
  | nil => simp [joinCommaSep, prependCommas]
  | cons y rest ih =>
    simp only [joinCommaSep, prependCommas, ih y]
    simp [String.append_assoc]

theorem formatTupleImpl_eq_joinCommaSep (l : List String) :
    formatTupleImpl l = "(" ++ joinCommaSep l ++ ")" := by
  cases l with
  | nil => rfl
  | cons x t =>
    simp only [formatTupleImpl, List.enum_cons, List.foldl_cons, if_pos rfl,
      joinCommaSep_cons]
    rw [formatFold_enumFrom t 1 (by omega)]
    simp [String.append_assoc]

theorem foldl_push_eq_append {β γ : Type} (g : β → γ) (l : List β) (init : List γ) :
    l.foldl (fun acc t => acc ++ [g t]) init = init ++ l.map g := by
  induction l generalizing init with
  | nil => simp
  | cons x t ih => simp [ih]

/-- Claim C6: `RunAllTests` executes every registered test exactly once in
insertion order — its filter is always true, so `DISABLED_`-prefixed names
are included like any other — and the summary satisfies
`total = passed + failed = number of registrations`. -/
theorem C6_runAllTests_visits_all_in_order (tests : List TestCase) :
    (runAllTests tests).executed = tests.map TestCase.name ∧
    (runAllTests tests).passed + (runAllTests tests).failed = tests.length ∧
    ("Total: " ++ toString tests.length ++ ", Passed: " ++
        toString (runAllTests tests).passed ++ ", Failed: " ++
        toString (runAllTests tests).failed) ∈ (runAllTests tests).lines := by
  have hexec := runTestsLoop_executed (fun _ => true) tests
  have hcnt := runTestsLoop_counts (fun _ => true) tests
  simp only [List.filter_true] at hexec hcnt
  refine ⟨?_, ?_, ?_⟩
  · simpa [runAllTests, runFilteredTests] using hexec
  · simpa [runAllTests, runFilteredTests] using hcnt
  · simp only [runAllTests, runFilteredTests, summaryBlock, List.mem_cons, List.mem_append,
      List.mem_singleton]
    refine Or.inr (Or.inr ?_)
    rw [hcnt]
    simp

/-- Claim C5: a test whose action throws a recoverable
(`std::exception`-derived) failure is recorded as FAIL with its message
and the run continues: for tests A, B, C where only B fails,
`RunAllTests` executes all three in order and reports
`Total: 3, Passed: 2, Failed: 1`, with B's FAIL line carrying B's
message. -/
theorem C5_fail_is_recorded_and_run_continues (a b c msg : String) :
    (runAllTests [⟨a, none⟩, ⟨b, some msg⟩, ⟨c, none⟩]).executed = [a, b, c] ∧
    (runAllTests [⟨a, none⟩, ⟨b, some msg⟩, ⟨c, none⟩]).passed = 2 ∧
    (runAllTests [⟨a, none⟩, ⟨b, some msg⟩, ⟨c, none⟩]).failed = 1 ∧
    ("[FAIL] " ++ b ++ " - " ++ msg) ∈ (runAllTests [⟨a, none⟩, ⟨b, some msg⟩, ⟨c, none⟩]).lines ∧
    "Total: 3, Passed: 2, Failed: 1" ∈ (runAllTests [⟨a, none⟩, ⟨b, some msg⟩, ⟨c, none⟩]).lines := by
  have hlines : (runAllTests [⟨a, none⟩, ⟨b, some msg⟩, ⟨c, none⟩]).lines =
      ["** Running All Tests **", "[RUNNING] " ++ a, "[PASS] " ++ a,
       "[RUNNING] " ++ b, "[FAIL] " ++ b ++ " - " ++ msg,
       "[RUNNING] " ++ c, "[PASS] " ++ c,
       "===========================================",
       "Total: 3, Passed: 2, Failed: 1",
       "==========================================="] := by
    simp [runAllTests, runFilteredTests, runTestsLoop, summaryBlock]
    decide
  refine ⟨rfl, rfl, rfl, ?_, ?_⟩ <;> rw [hlines] <;> simp

/-- Claim C9: `RunTestsByPrefix(p)` executes exactly the registered tests
whose name starts with `p`, in insertion order; with the empty prefix it
executes the same tests with the same outcomes as `RunAllTests` (their
output differs only in the banner line). -/
theorem C9_prefix_run_selects_starting_names (p : String) (tests : List TestCase) :
    (runTestsWithPrefixFilter p tests).executed =
      (tests.filter (fun t => beginsWithChars p.data t.name.data)).map TestCase.name ∧
    (runTestsWithPrefixFilter "" tests).executed = (runAllTests tests).executed ∧
    (runTestsWithPrefixFilter "" tests).passed = (runAllTests tests).passed ∧
    (runTestsWithPrefixFilter "" tests).failed = (runAllTests tests).failed ∧
    (runTestsWithPrefixFilter "" tests).lines.tail = (runAllTests tests).lines.tail := by
  have hfilters : (fun name => strFind name "" == some 0) = (fun _ : String => true) := by
    funext name
    have : strFind name "" = some 0 := by
      apply (strFind_zero_iff name "").2
      cases name.data <;> rfl
    simp [this]
  have hempty :
      runFilteredTests (fun name => strFind name "" == some 0) tests =
        runFilteredTests (fun _ => true) tests := by rw [hfilters]
  refine ⟨?_, ?_, ?_, ?_, ?_⟩
  · have hexec := runTestsLoop_executed (fun name => strFind name p == some 0) tests
    have hf : (fun t : TestCase => strFind t.name p == some 0) =
        (fun t : TestCase => beginsWithChars p.data t.name.data) := by
      funext t
      rcases h : beginsWithChars p.data t.name.data with _ | _
      · have : ¬ strFind t.name p = some 0 := by
          intro hc; rw [(strFind_zero_iff t.name p).1 hc] at h; cases h
        simp [this]
      · simp [(strFind_zero_iff t.name p).2 h]
    simpa [runTestsWithPrefixFilter, runFilteredTests, hf] using hexec
  · simp [runTestsWithPrefixFilter, runAllTests, hempty]
  · simp [runTestsWithPrefixFilter, runAllTests, hempty]
  · simp [runTestsWithPrefixFilter, runAllTests, hempty]
  · simp [runTestsWithPrefixFilter, runAllTests, hempty]

/-- Claim C7: when a known suite contains a test exactly matching a
non-empty filter, `RunSuite` runs setup once (iff present), then exactly
that one test, then teardown once (iff present); no other test of the
suite is executed, and the summary counts only that test. -/
theorem C7_runSuite_filter_runs_single_matching_test (st : SuiteState)
    (suite testFilter : String) (tests : List TestCase) (t : TestCase)
    (hs : st.suites.lookup suite = some tests) (hfl : testFilter ≠ "")
    (hfind : tests.find? (fun c => c.name == testFilter) = some t) :
    runSuite st suite testFilter =
      setupSuite st suite ++
        (SuiteEvent.running t.name ::
          (match t.func with
           | none => [SuiteEvent.pass t.name]
           | some m => [SuiteEvent.fail t.name m])) ++
        teardownSuite st suite ++
        [SuiteEvent.summary suite (if t.func = none then 1 else 0)
          (if t.func = none then 0 else 1)] ∧
    (runSuite st suite testFilter).count (SuiteEvent.setupRun suite) =
      (if st.setups.contains suite then 1 else 0) ∧
    (runSuite st suite testFilter).count (SuiteEvent.teardownRun suite) =
      (if st.teardowns.contains suite then 1 else 0) ∧
    suiteRunningNames (runSuite st suite testFilter) = [t.name] := by
  have hrun : runSuite st suite testFilter = runTests st [t] suite := by
    simp [runSuite, hs, hfl, hfind]
  refine ⟨?_, ?_, ?_, ?_⟩
  · rw [hrun]
    cases hf : t.func <;> simp [runTests, suiteLoop, hf]
  · rw [hrun]
    by_cases hsu : suite ∈ st.setups <;>
      by_cases htd : suite ∈ st.teardowns <;>
        cases hf : t.func <;>
          simp [runTests, suiteLoop, setupSuite, teardownSuite, hf, hsu, htd, List.count_cons,
            List.count_append]
  · rw [hrun]
    by_cases hsu : suite ∈ st.setups <;>
      by_cases htd : suite ∈ st.teardowns <;>
        cases hf : t.func <;>
          simp [runTests, suiteLoop, setupSuite, teardownSuite, hf, hsu, htd, List.count_cons,
            List.count_append]
  · rw [hrun]
    by_cases hsu : suite ∈ st.setups <;>
      by_cases htd : suite ∈ st.teardowns <;>
        cases hf : t.func <;>
          simp [runTests, suiteLoop, setupSuite, teardownSuite, hf, hsu, htd, suiteRunningNames]

/-- Witness for C7: the suite "Math" holds tests X and Y and has both
hooks; `RunSuite("Math", "Y")` produces setup, Y's two lines, teardown,
and a summary counting exactly one test. -/
theorem C7_runSuite_filter_witness :
    runSuite ⟨[("Math", [⟨"X", none⟩, ⟨"Y", none⟩])], ["Math"], ["Math"]⟩ "Math" "Y" =
      setupSuite ⟨[("Math", [⟨"X", none⟩, ⟨"Y", none⟩])], ["Math"], ["Math"]⟩ "Math" ++
        (SuiteEvent.running "Y" :: [SuiteEvent.pass "Y"]) ++
        teardownSuite ⟨[("Math", [⟨"X", none⟩, ⟨"Y", none⟩])], ["Math"], ["Math"]⟩ "Math" ++
        [SuiteEvent.summary "Math" 1 0] ∧
    suiteRunningNames
      (runSuite ⟨[("Math", [⟨"X", none⟩, ⟨"Y", none⟩])], ["Math"], ["Math"]⟩ "Math" "Y") =
      ["Y"] := by
  have h := C7_runSuite_filter_runs_single_matching_test
    ⟨[("Math", [⟨"X", none⟩, ⟨"Y", none⟩])], ["Math"], ["Math"]⟩ "Math" "Y"
    [⟨"X", none⟩, ⟨"Y", none⟩] ⟨"Y", none⟩ (by decide) (by decide) (by decide)
  exact ⟨h.1, h.2.2.2⟩

/-- Claim C8: on either lookup failure — unknown suite name, or a
non-empty filter matching no test of a known suite — `RunSuite` emits a
single `[ERROR]` line and nothing else: no test runs, neither hook is
invoked, and the call returns normally. -/
theorem C8_runSuite_lookup_failure_only_reports (st : SuiteState) (suite testFilter : String)
    (h : st.suites.lookup suite = none ∨
      (testFilter ≠ "" ∧ ∃ tests, st.suites.lookup suite = some tests ∧
        tests.find? (fun c => c.name == testFilter) = none)) :
    ∃ msg, runSuite st suite testFilter = [SuiteEvent.err msg] := by
  rcases h with h | ⟨hfl, tests, hs, hfind⟩
  · exact ⟨"Test suite '" ++ suite ++ "' not found.", by simp [runSuite, h]⟩
  · exact ⟨"Test '" ++ testFilter ++ "' not found in suite '" ++ suite ++ "'.",
      by simp [runSuite, hs, hfl, hfind]⟩

/-- Witness for C8: looking up a suite in an empty registry fails and
produces only the error event. -/
theorem C8_runSuite_lookup_failure_witness :
    ∃ msg, runSuite ⟨[], [], []⟩ "Math" "" = [SuiteEvent.err msg] :=
  C8_runSuite_lookup_failure_only_reports ⟨[], [], []⟩ "Math" "" (Or.inl rfl)

/-- Claim C1 (documenting the code defect): registering a benchmark with
`iterations = 0` raises no configuration error — the case is stored
exactly as given — and running it raises no error either: the run
completes normally, the action is called 0 times, and the reported mean
is computed with the stored non-positive divisor 0 (in the C++ source,
`totalTime / iterations` with `iterations = 0`). -/
theorem C1_nonpositive_iterations_not_rejected :
    registerBenchmark "TestLoopPerformance" 0 [] = [("TestLoopPerformance", ⟨0⟩)] ∧
    runFilteredBenchmarks [("TestLoopPerformance", ⟨0⟩)] (fun _ => true) (fun _ _ => 0) =
      [⟨"TestLoopPerformance", 0, 0, 0, 0⟩] := by
  constructor
  · rfl
  · simp [runFilteredBenchmarks]

/-- The C3 claim specialised to the benchmark registry: every filtered
run — over whichever enumeration order the unordered container presents
— reports matched cases in registration order. -/
def benchRunsInRegistrationOrder : Prop :=
  ∀ (regs : List (String × Int)) (entries : List (String × BenchmarkCase))
    (filter : String → Bool) (dur : String → Nat → ℚ),
    entries.Perm (benchRegisterList regs) →
    (runFilteredBenchmarks entries filter dur).map BenchResult.name =
      ((benchRegisterList regs).map Prod.fst).filter filter

/-- Counterexample for C3: register "A" then "B" (both with 1 iteration);
the enumeration ["B", "A"] is a valid unordered_map iteration order
(a permutation of the stored entries), yet the run reports "B" before
"A" — the later-registered case first. -/
theorem C3_counterexample_bench_not_insertion_order : ¬ benchRunsInRegistrationOrder := by
  intro h
  have hperm : ([("B", (⟨1⟩ : BenchmarkCase)), ("A", ⟨1⟩)]).Perm
      (benchRegisterList [("A", 1), ("B", 1)]) := by
    have : benchRegisterList [("A", 1), ("B", 1)] =
        [("A", (⟨1⟩ : BenchmarkCase)), ("B", ⟨1⟩)] := rfl
    rw [this]
    exact List.Perm.swap _ _ _
  have hrun := h [("A", 1), ("B", 1)] [("B", ⟨1⟩), ("A", ⟨1⟩)]
    (fun _ => true) (fun _ _ => 0) hperm
  have hL : (runFilteredBenchmarks [("B", (⟨1⟩ : BenchmarkCase)), ("A", ⟨1⟩)]
      (fun _ => true) (fun _ _ => 0)).map BenchResult.name = ["B", "A"] := by
    simp [runFilteredBenchmarks]
  have hR : ((benchRegisterList [("A", 1), ("B", 1)]).map Prod.fst).filter
      (fun _ => true) = ["A", "B"] := rfl
  rw [hL, hR] at hrun
  exact absurd hrun (by decide)

/-- Claim C3 (amended): within a single filtered run, the vector-backed
registries do execute entries in insertion order — proved here for the
`TestFramework` registry and for a suite's test list — but the
`BenchmarkRegistry` stores its cases in an `std::unordered_map`, whose
iteration order is unspecified, so its filtered run carries no
insertion-order guarantee (see the counterexample). -/
theorem C3_vector_registries_run_in_insertion_order (filter : String → Bool)
    (tests : List TestCase) (suiteTests : List TestCase) :
    (runFilteredTests filter tests).executed =
      (tests.filter (fun t => filter t.name)).map TestCase.name ∧
    suiteRunningNames (suiteLoop suiteTests).1 = suiteTests.map TestCase.name := by
  exact ⟨runTestsLoop_executed filter tests, suiteLoop_running_names suiteTests⟩

/-- Claim C2 (documenting the code defect): `ResetAll()` clears only the
never-populated `mockStorage` map and leaves every `GetMockFunctions<T>`
map untouched, so a stub survives it: with function address 7 stubbed to
return 42, `Invoke` after `ResetAll` still returns 42 rather than the
zero value 0 that the claim — and the repository's own
`TestMockResetAll` test in main.cpp — expects. In general `ResetAll`
changes nothing `Invoke` can observe. -/
theorem C2_resetAll_leaves_stubs_in_place :
    mockInvoke (mockResetAll (mockSetReturn (⟨[], []⟩ : MockState Int) 7 42)) 7 = 42 ∧
    (42 : Int) ≠ (default : Int) ∧
    ∀ (st : MockState Int) (f : Nat), mockInvoke (mockResetAll st) f = mockInvoke st f := by
  refine ⟨rfl, by decide, fun st f => rfl⟩

/-- Claim C4: with `ASSERT_FAIL`'s body commented out, no assertion macro
can signal a failure: each of the five macros completes normally on
every input, any test body made only of such macros completes normally,
and a test registered with such a body is recorded PASS (1 passed, 0
failed) by the run loop. -/
theorem C4_assertion_macros_cannot_fail {α : Type} [DecidableEq α] (renderFn : α → String)
    (condition : Bool) (expected actual : α) (statementExc : Option String) (excType : String)
    (testName : String) (calls : List (AssertCall α)) :
    assertTrueMacro condition = none ∧
    assertFalseMacro condition = none ∧
    assertEqMacro renderFn expected actual = none ∧
    assertNeMacro renderFn expected actual = none ∧
    assertThrowMacro statementExc excType = none ∧
    runAssertBody renderFn calls = none ∧
    (runAllTests [⟨testName, runAssertBody renderFn calls⟩]).passed = 1 ∧
    (runAllTests [⟨testName, runAssertBody renderFn calls⟩]).failed = 0 := by
  have hcall : ∀ c : AssertCall α, runAssertCall renderFn c = none := by
    intro c
    cases c with
    | assertTrueC c => cases c <;> rfl
    | assertFalseC c => cases c <;> rfl
    | assertEqC e a =>
      by_cases h : e = a <;> simp [runAssertCall, assertEqMacro, assertFailMacro, h]
    | assertNeC e a =>
      by_cases h : e = a <;> simp [runAssertCall, assertNeMacro, assertFailMacro, h]
    | assertThrowC s ty =>
      cases s with
      | none => rfl
      | some thrown =>
        by_cases h : thrown = ty <;> simp [runAssertCall, assertThrowMacro, assertFailMacro, h]
  have hbody : ∀ l : List (AssertCall α), runAssertBody renderFn l = none := by
    intro l
    induction l with
    | nil => rfl
    | cons c rest ih => simp [runAssertBody, hcall c, ih]
  refine ⟨?_, ?_, ?_, ?_, ?_, hbody calls, ?_, ?_⟩
  · simpa [runAssertCall] using hcall (AssertCall.assertTrueC condition)
  · simpa [runAssertCall] using hcall (AssertCall.assertFalseC condition)
  · simpa [runAssertCall] using hcall (AssertCall.assertEqC expected actual)
  · simpa [runAssertCall] using hcall (AssertCall.assertNeC expected actual)
  · simpa [runAssertCall] using hcall (AssertCall.assertThrowC statementExc excType)
  · simp [runAllTests, runFilteredTests, runTestsLoop, hbody calls]
  · simp [runAllTests, runFilteredTests, runTestsLoop, hbody calls]

/-- Claim C10: for a dataset of n tuples, `RegisterParamTest` appends
exactly n test cases to the parameterized registry, in dataset order,
each named `base(v1, v2, …)` with the elements' renderings joined by
`", "` in tuple order; the empty dataset registers zero cases and leaves
the registry untouched. -/
theorem C10_param_expansion_registers_dataset (name : String) (params : List ParamTuple)
    (paramTests : List TestCase) :
    registerParamTest name params paramTests =
      paramTests ++ params.map (fun t =>
        ⟨name ++ "(" ++ joinCommaSep t.rendered ++ ")", t.outcome⟩) ∧
    (registerParamTest name params paramTests).length =
      paramTests.length + params.length ∧
    registerParamTest name [] paramTests = paramTests := by
  have hmain : registerParamTest name params paramTests =
      paramTests ++ params.map (fun t =>
        ⟨name ++ "(" ++ joinCommaSep t.rendered ++ ")", t.outcome⟩) := by
    unfold registerParamTest
    rw [foldl_push_eq_append (fun t : ParamTuple =>
      (⟨name ++ formatTupleImpl t.rendered, t.outcome⟩ : TestCase)) params paramTests]
    congr 1
    apply List.map_congr_left
    intro t _
    rw [formatTupleImpl_eq_joinCommaSep]
    simp [String.append_assoc]
  exact ⟨hmain, by simp [hmain], rfl⟩

end MiniTest
